import Mathlib

/-!
Verification of the pg-utils core: the filter-expression compiler
(`Database.build_where_clause`), alias generation (`Database.create_alias`),
insert/update statement building, the migration ledger DDL and the
migration runner (`MigrationManager`), shallowly embedded from
`src/pg_utils/database.py` and `src/pg_utils/migration_manager.py`.

Python dictionaries are modelled as association lists in insertion order
(CPython dicts iterate in insertion order); Python sets are modelled as
lists used only through membership.  The value universe `PyVal` covers the
scalar Python values the builder handles (None, str, int, bool); Python
`dict`-typed field values (json-serialised on insert) are outside this
universe.  Machine integers do not occur (Python ints are unbounded).
-/

namespace PgUtils

/-- Scalar Python value as seen by the query builder: `None`, `str`,
`int` or `bool`. -/
inductive PyVal where
  | vNone
  | vStr (s : String)
  | vInt (n : Int)
  | vBool (b : Bool)
deriving DecidableEq

/-- A value bound as a query parameter or passed to
`parse_simple_comparison`: either a scalar or a Python list of scalars. -/
inductive SimpleVal where
  | scalar (v : PyVal)
  | list (vs : List PyVal)
deriving DecidableEq

/-- Python `str()` of a scalar value. -/
def pyStrScalar : PyVal → String
  | .vNone => "None"
  | .vStr s => s
  | .vInt n => toString n
  | .vBool true => "True"
  | .vBool false => "False"

/-- Python `repr()` of a scalar value (strings get quoted), used for
elements when a list is interpolated into an f-string. -/
def pyReprScalar : PyVal → String
  | .vStr s => "\x27" ++ s ++ "\x27"
  | v => pyStrScalar v

/-- Python `sep.join(parts)`. -/
def joinSep (sep : String) : List String → String
  | [] => ""
  | [x] => x
  | x :: y :: xs => x ++ sep ++ joinSep sep (y :: xs)

/-- Whether the second character list starts with the first one. -/
def startsWithChars : List Char → List Char → Bool
  | [], _ => true
  | _ :: _, [] => false
  | a :: as2, b :: bs => a == b && startsWithChars as2 bs

/-- Python `str.split(sep)` for a non-empty separator, scanning left to
right and cutting at each non-overlapping occurrence.  Each step
consumes at least one character, so `fuel = length + 1` never runs out;
the fuel only makes the recursion structural. -/
def splitFuel (sep : List Char) : Nat → List Char → List Char → List (List Char)
  | 0, _, acc => [acc.reverse]
  | _ + 1, [], acc => [acc.reverse]
  | f + 1, c :: cs, acc =>
      if startsWithChars sep (c :: cs) then
        acc.reverse :: splitFuel sep f (cs.drop (sep.length - 1)) []
      else splitFuel sep f cs (c :: acc)

/-- Python `s.split(sep)` (non-empty `sep`). -/
def pySplit (s sep : String) : List String :=
  (splitFuel sep.data (s.data.length + 1) s.data []).map String.mk

/-- Python `s.replace(old, new)`: replace every non-overlapping
occurrence scanning left to right, i.e. split on `old` and join with
`new`. -/
def pyReplace (s old new : String) : String :=
  joinSep new (pySplit s old)

/-- Python `str()` of a `SimpleVal` (f-string interpolation). -/
def pyStrSimple : SimpleVal → String
  | .scalar v => pyStrScalar v
  | .list vs => "[" ++ joinSep ", " (vs.map pyReprScalar) ++ "]"

/-- `format_condition` from `Database.build_where_clause`
(src/pg_utils/database.py:40-43): wraps the expression in `NOT (...)`
when `is_not` is set. -/
def format_condition (expression : String) (is_not : Bool) : String :=
  if is_not then "NOT (" ++ expression ++ ")" else expression

/-- `parse_simple_comparison` (src/pg_utils/database.py:45-58): `IS NULL`
for `None`, `IN (...)` with one placeholder per element for a list,
`= %s` otherwise.  Returns the single appended condition string together
with the values appended to `where_values`. -/
def parse_simple_comparison (column : String) (value : SimpleVal) (is_not : Bool) :
    String × List SimpleVal :=
  match value with
  | .scalar .vNone => (format_condition (column ++ " IS NULL") is_not, [])
  | .list vs =>
      (format_condition
        (column ++ " IN (" ++ joinSep ", " (List.replicate vs.length "%s") ++ ")") is_not,
       vs.map SimpleVal.scalar)
  | .scalar v => (format_condition (column ++ " = %s") is_not, [SimpleVal.scalar v])

/-- A structured condition dictionary containing the key `"value"`
(`WhereConditionValue`): `value`, optional `mode`, `is_not`
(default `False` via `condition.get("is_not", False)`). -/
structure ModeCond where
  value : SimpleVal
  mode : Option String
  is_not : Bool
deriving DecidableEq

/-- `parse_mode_comparison` (src/pg_utils/database.py:60-79). -/
def parse_mode_comparison (column : String) (c : ModeCond) : String × List SimpleVal :=
  if c.mode = some "ilike" then
    (format_condition (column ++ " ILIKE %s") c.is_not,
     [SimpleVal.scalar (PyVal.vStr ("%" ++ pyStrSimple c.value ++ "%"))])
  else if c.mode = some "like" then
    (format_condition (column ++ " LIKE %s") c.is_not,
     [SimpleVal.scalar (PyVal.vStr ("%" ++ pyStrSimple c.value ++ "%"))])
  else if c.mode = some "date" then
    (format_condition ("DATE(" ++ column ++ ") = %s") c.is_not, [c.value])
  else parse_simple_comparison column c.value c.is_not

/-- The value attached to one range operator key: either a plain value or
a dict `\x7bvalue, is_not\x7d` (a missing `"value"` key reads as `None`,
i.e. `SimpleVal.scalar .vNone`). -/
inductive RangeVal where
  | plain (v : SimpleVal)
  | wrapped (value : SimpleVal) (is_not : Bool)
deriving DecidableEq

/-- A structured range dictionary (no `"value"` key): any subset of
`lt`, `lte`, `gt`, `gte`. -/
structure RangeCond where
  lt : Option RangeVal
  lte : Option RangeVal
  gt : Option RangeVal
  gte : Option RangeVal
deriving DecidableEq

/-- One iteration of the loop in `parse_range_operators`
(src/pg_utils/database.py:84-103) for a single operator key. -/
def rangeEntry (column : String) (sqlOp : String) : Option RangeVal → List String × List SimpleVal
  | none => ([], [])
  | some (.plain v) =>
      ([format_condition (column ++ " " ++ sqlOp ++ " %s") false], [v])
  | some (.wrapped v n) =>
      ([format_condition (column ++ " " ++ sqlOp ++ " %s") n], [v])

/-- `parse_range_operators` (src/pg_utils/database.py:81-103): the four
operator keys are probed in the fixed order `lt`, `lte`, `gt`, `gte`. -/
def parse_range_operators (column : String) (c : RangeCond) : List String × List SimpleVal :=
  let l1 := rangeEntry column "<" c.lt
  let l2 := rangeEntry column "<=" c.lte
  let l3 := rangeEntry column ">" c.gt
  let l4 := rangeEntry column ">=" c.gte
  (l1.1 ++ l2.1 ++ l3.1 ++ l4.1, l1.2 ++ l2.2 ++ l3.2 ++ l4.2)

/-- A condition value attached to a filter key, mirroring the runtime
type dispatch in `process_condition`: Python `None`, a bare scalar, a
list, a dict containing `"value"`, or a dict without `"value"` (range
keys only, possibly none of them). -/
inductive Cond where
  | null
  | scalar (v : PyVal)
  | listC (vs : List PyVal)
  | modeDict (c : ModeCond)
  | rangeDict (c : RangeCond)
deriving DecidableEq

/-- `any(op in condition for op in ("lt", "lte", "gt", "gte"))`. -/
def hasRangeKey (c : RangeCond) : Bool :=
  c.lt.isSome || c.lte.isSome || c.gt.isSome || c.gte.isSome

/-- Column resolution in `process_condition`
(src/pg_utils/database.py:111): `f"\x7balias\x7d.\x7bkey\x7d"` when an
alias is supplied and the key has no dot, else the key verbatim. -/
def resolveColumn (al : Option String) (key : String) : String :=
  match al with
  | some a => if key.data.contains '.' then key else a ++ "." ++ key
  | none => key

/-- `process_condition` (src/pg_utils/database.py:105-121): fragments and
parameter values contributed by one filter key. -/
def process_condition (al : Option String) (key : String) (condition : Cond) :
    List String × List SimpleVal :=
  let column := resolveColumn al key
  match condition with
  | .null => ([column ++ " IS NULL"], [])
  | .modeDict c =>
      let r := parse_mode_comparison column c
      ([r.1], r.2)
  | .rangeDict c =>
      if hasRangeKey c then parse_range_operators column c else ([], [])
  | .scalar v =>
      let r := parse_simple_comparison column (.scalar v) false
      ([r.1], r.2)
  | .listC vs =>
      let r := parse_simple_comparison column (.list vs) false
      ([r.1], r.2)

/-- Sequential processing of a list of (key, condition) pairs: the code
appends each key's fragments to a shared conditions array and its values
to the shared `where_values` list. -/
def processConds (al : Option String) : List (String × Cond) → List String × List SimpleVal
  | [] => ([], [])
  | (k, c) :: rest =>
      let h := process_condition al k c
      let r := processConds al rest
      (h.1 ++ r.1, h.2 ++ r.2)

/-- A filter mapping (`WhereClause`): the keys other than `"OR"` in
insertion order, and the optional nested mapping under the reserved key
`"OR"`. -/
structure WhereClause where
  andKeys : List (String × Cond)
  orKeys : Option (List (String × Cond))
deriving DecidableEq

/-- Python truthiness test `if not where:` — `None` or an empty dict. -/
def isEmptyWhere : Option WhereClause → Bool
  | none => true
  | some w => w.andKeys.isEmpty && w.orKeys.isNone

/-- `Database.build_where_clause` (src/pg_utils/database.py:27-141).
Returns the clause text (with a leading `" WHERE "` when non-empty) and
the ordered parameter values: the copied seed list, then the AND-group
values, then the OR-group values. -/
def build_where_clause (whereArg : Option WhereClause) (values : Option (List SimpleVal))
    (main_table_alias : Option String) : String × List SimpleVal :=
  if isEmptyWhere whereArg then ("", [])
  else
    match whereArg with
    | none => ("", [])
    | some w =>
        let seed := match values with
          | some v => v
          | none => []
        let ar := processConds main_table_alias w.andKeys
        let orr := processConds main_table_alias (w.orKeys.getD [])
        let where_values := seed ++ ar.2 ++ orr.2
        let clause :=
          if ar.1.isEmpty && orr.1.isEmpty then ""
          else
            " WHERE "
            ++ (if ar.1.isEmpty then "" else "(" ++ joinSep " AND " ar.1 ++ ")")
            ++ (if orr.1.isEmpty then ""
                else (if ar.1.isEmpty then "" else " OR ")
                  ++ "(" ++ joinSep " OR " orr.1 ++ ")")
        (clause, where_values)

/-- Leading-underscore stripping, `table.lstrip("_")`
(src/pg_utils/database.py:144). -/
def dropLeadingUnderscores : List Char → List Char
  | [] => []
  | c :: cs => if c = '_' then dropLeadingUnderscores cs else c :: cs

/-- `table.lstrip("_")` as a `String` operation. -/
def lstripUnderscore (s : String) : String :=
  String.mk (dropLeadingUnderscores s.data)

/-- `"".join(part[0] for part in parts)`: the first character of every
`"_"`-separated segment.  `none` models the `IndexError` Python raises
when a segment is empty (consecutive or trailing underscores). -/
def firstCharsOf (parts : List String) : Option String :=
  if parts.all (fun p => !p.data.isEmpty) then
    some (String.mk (parts.foldr (fun p acc => p.data.take 1 ++ acc) []))
  else none

/-- The alias base derived from a table name in `Database.create_alias`
(src/pg_utils/database.py:143-146). -/
def aliasBase (table : String) : Option String :=
  firstCharsOf (pySplit (lstripUnderscore table) "_")

/-- The candidate alias tried with loop counter `k`: the bare base for
`k = 0`, else `alias = base + str(counter)`. -/
def aliasCandidate (base : String) : Nat → String
  | 0 => base
  | Nat.succ n => base ++ toString (Nat.succ n)

/-- The `while alias in existing_aliases` loop of `create_alias`
(src/pg_utils/database.py:149-151), given fuel.  Candidate strings for
distinct counters are pairwise distinct, so the loop always finds a free
alias within `existing.length + 1` probes; `none` (fuel exhausted) is
unreachable when called with that fuel and only keeps the model total. -/
def firstFreeAlias (base : String) (existing : List String) : Nat → Nat → Option String
  | 0, _ => none
  | Nat.succ fuel, k =>
      if existing.contains (aliasCandidate base k) then
        firstFreeAlias base existing fuel (k + 1)
      else some (aliasCandidate base k)

/-- `Database.create_alias` (src/pg_utils/database.py:143-155): derive
the base from the table name, bump an integer suffix until the alias is
unused, register it in the per-statement set, and return it.  The set is
modelled as a list used through membership; registration conses the
chosen alias.  `none` models the `IndexError` on an empty segment. -/
def create_alias (table : String) (existing_aliases : List String) :
    Option (String × List String) :=
  match aliasBase table with
  | none => none
  | some base =>
      match firstFreeAlias base existing_aliases (existing_aliases.length + 1) 0 with
      | none => none
      | some a => some (a, a :: existing_aliases)

/-- Auto-alias assignment for the tables referenced by one
`find_many`/`count` statement (src/pg_utils/database.py:321,357-362 and
460,466-471): the main table and then each join table without an
explicit alias call `create_alias` against the same
`existing_aliases` set. -/
def assignAliases : List String → List String → Option (List String × List String)
  | [], ex => some ([], ex)
  | t :: ts, ex =>
      match create_alias t ex with
      | none => none
      | some (a, ex2) =>
          match assignAliases ts ex2 with
          | none => none
          | some (as2, ex3) => some (a :: as2, ex3)

/-- `psycopg.sql.Identifier` rendering: double-quoted identifier. -/
def quoteIdent (name : String) : String :=
  "\"" ++ name ++ "\""

/-- Python `value is not None` test used by the INSERT column filter. -/
def isNotNone : PyVal → Bool
  | .vNone => false
  | _ => true

/-- The column list built by `Database.insert_into_table`
(src/pg_utils/database.py:195): keys whose value is not `None`, in key
order. -/
def insert_columns (data_dict : List (String × PyVal)) : List String :=
  (data_dict.filter (fun kv => isNotNone kv.2)).map Prod.fst

/-- The bound values of `Database.insert_into_table`
(src/pg_utils/database.py:196-203), one per retained column.  (The
`json.dumps` branch applies only to Python `dict` values, which lie
outside the modelled value universe.) -/
def insert_values (data_dict : List (String × PyVal)) : List PyVal :=
  (data_dict.filter (fun kv => isNotNone kv.2)).map Prod.snd

/-- The INSERT statement text of `Database.insert_into_table`
(src/pg_utils/database.py:213-218) with no RETURNING selection (as used
by the migration ledger), together with its bound values. -/
def insert_into_table_query (table : String) (data_dict : List (String × PyVal)) :
    String × List PyVal :=
  let columns := insert_columns data_dict
  let values := insert_values data_dict
  ("INSERT INTO " ++ quoteIdent table ++ " (" ++ joinSep ", " (columns.map quoteIdent)
     ++ ") VALUES (" ++ joinSep ", " (List.replicate values.length "%s") ++ ") ",
   values)

/-- The SET clause of `Database.update_into_table`
(src/pg_utils/database.py:278-280): every key of the data mapping
contributes `"col" = %s` — there is no filtering of `None` values. -/
def update_set_clause (data_dict : List (String × PyVal)) : String :=
  joinSep ", " (data_dict.map (fun kv => quoteIdent kv.1 ++ " = %s"))

/-- `Database.update_into_table` (src/pg_utils/database.py:269-290):
statement text and bound parameters.  The SET values seed
`build_where_clause`, so the parameters are the SET values followed by
the filter values (and are discarded entirely when the filter is
empty/absent, as `build_where_clause` then returns `[]`). -/
def update_into_table_query (table : String) (data_dict : List (String × PyVal))
    (whereArg : Option WhereClause) : String × List SimpleVal :=
  let values := data_dict.map (fun kv => SimpleVal.scalar kv.2)
  let wr := build_where_clause whereArg (some values) none
  ("UPDATE " ++ quoteIdent table ++ " SET " ++ update_set_clause data_dict ++ wr.1,
   wr.2)

/-- One column definition of a CREATE TABLE statement. -/
structure ColumnDef where
  colName : String
  sqlType : String
  isPrimaryKey : Bool
  isNotNull : Bool
  isUnique : Bool
  defaultExpr : Option String
deriving DecidableEq

/-- A CREATE TABLE statement. -/
structure CreateTableStmt where
  ifNotExists : Bool
  tableName : String
  columns : List ColumnDef
deriving DecidableEq

/-- The ledger DDL issued by `MigrationManager.initialize`
(src/pg_utils/migration_manager.py:13-21), transcribed constraint by
constraint from the SQL text:
`CREATE TABLE IF NOT EXISTS "_migrations" ("id" SERIAL PRIMARY KEY,
"name" TEXT NOT NULL, "created_at" TIMESTAMP DEFAULT CURRENT_TIMESTAMP);`
Note: the `"name"` column carries `NOT NULL` but no `UNIQUE` constraint. -/
def migrations_table_ddl : CreateTableStmt :=
  { ifNotExists := true
    tableName := "_migrations"
    columns :=
      [ { colName := "id", sqlType := "SERIAL", isPrimaryKey := true,
          isNotNull := false, isUnique := false, defaultExpr := none },
        { colName := "name", sqlType := "TEXT", isPrimaryKey := false,
          isNotNull := true, isUnique := false, defaultExpr := none },
        { colName := "created_at", sqlType := "TIMESTAMP", isPrimaryKey := false,
          isNotNull := false, isUnique := false,
          defaultExpr := some "CURRENT_TIMESTAMP" } ] }

/-- The ledger schema claimed by the spec (§6, §4.4), stated in the
spec's words: idempotent creation of `_migrations` with `id`
auto-increment primary key, `name` unique non-null text, and
`created_at` timestamp defaulting to the current time. -/
def specLedgerTableSchema (s : CreateTableStmt) : Bool :=
  s.ifNotExists
  && s.tableName == "_migrations"
  && s.columns.any (fun col =>
       col.colName == "id" && col.sqlType == "SERIAL" && col.isPrimaryKey)
  && s.columns.any (fun col =>
       col.colName == "name" && col.sqlType == "TEXT"
         && col.isNotNull && col.isUnique)
  && s.columns.any (fun col =>
       col.colName == "created_at" && col.sqlType == "TIMESTAMP"
         && col.defaultExpr == some "CURRENT_TIMESTAMP")

/-- The ledger schema the code actually creates: as the spec claims it
except that `name` carries no UNIQUE constraint. -/
def amendedLedgerTableSchema (s : CreateTableStmt) : Bool :=
  s.ifNotExists
  && s.tableName == "_migrations"
  && s.columns.any (fun col =>
       col.colName == "id" && col.sqlType == "SERIAL" && col.isPrimaryKey)
  && s.columns.any (fun col =>
       col.colName == "name" && col.sqlType == "TEXT"
         && col.isNotNull && !col.isUnique)
  && s.columns.any (fun col =>
       col.colName == "created_at" && col.sqlType == "TIMESTAMP"
         && col.defaultExpr == some "CURRENT_TIMESTAMP")

/-- The committed-visible database data the migration engine touches:
the `_migrations` ledger rows `(id, name)` in insertion order, the next
`SERIAL` id, and the log of successfully executed migration SQL bodies
(the abstract schema effect of the external "execute SQL" capability). -/
structure DBData where
  ledger : List (Nat × String)
  nextId : Nat
  log : List String
deriving DecidableEq

/-- A connection as `Database` holds it (`autocommit=False`):
the committed data, the in-transaction view `pending`, and the trace of
statements sent to the server (never rolled back).  Ledger INSERT/DELETE
statements appear in the trace as `"INSERT _migrations <name>"` /
`"DELETE _migrations <name>"`. -/
structure Conn where
  committed : DBData
  pending : DBData
  trace : List String
deriving DecidableEq

/-- Failure oracle for the external database: which migration SQL bodies
raise, and for which migration names the ledger INSERT (resp. DELETE)
raises. -/
structure SqlOracle where
  sqlFails : String → Bool
  insFails : String → Bool
  delFails : String → Bool

/-- A fresh connection over empty data (ledger ids start at 1, matching
`SERIAL`). -/
def emptyConn : Conn :=
  { committed := { ledger := [], nextId := 1, log := [] }
    pending := { ledger := [], nextId := 1, log := [] }
    trace := [] }

/-- `Database.execute_query` (src/pg_utils/database.py:157-167) on a
rowless statement, over the external driver capability: the statement
runs inside the connection's current transaction, and because a rowless
statement has no cursor description the method immediately calls
`connection.commit()`.  `BEGIN` / `COMMIT` / `ROLLBACK` have their SQL
transaction-control meaning; any other statement appends itself to the
schema log unless the oracle makes it raise, in which case the
transaction is aborted (its uncommitted work is lost) and the exception
is returned. -/
def execute_query (o : SqlOracle) (query : String) (c : Conn) : Conn × Option String :=
  if query = "BEGIN" then
    ({ committed := c.pending, pending := c.pending, trace := c.trace ++ [query] }, none)
  else if query = "COMMIT" then
    ({ committed := c.pending, pending := c.pending, trace := c.trace ++ [query] }, none)
  else if query = "ROLLBACK" then
    ({ committed := c.committed, pending := c.committed, trace := c.trace ++ [query] }, none)
  else if o.sqlFails query then
    ({ committed := c.committed, pending := c.committed, trace := c.trace ++ [query] },
     some ("SQLError: " ++ query))
  else
    let p := { c.pending with log := c.pending.log ++ [query] }
    ({ committed := p, pending := p, trace := c.trace ++ [query] }, none)

/-- `Database.insert_into_table` on the ledger
(src/pg_utils/database.py:220-223, called from
src/pg_utils/migration_manager.py:45): execute the INSERT, then
`connection.commit()`.  On failure the exception propagates before the
commit. -/
def ledger_insert (o : SqlOracle) (name : String) (c : Conn) : Conn × Option String :=
  if o.insFails name then
    ({ committed := c.committed, pending := c.committed,
       trace := c.trace ++ ["INSERT _migrations " ++ name] },
     some ("InsertError: " ++ name))
  else
    let p := { c.pending with
                ledger := c.pending.ledger ++ [(c.pending.nextId, name)],
                nextId := c.pending.nextId + 1 }
    ({ committed := p, pending := p,
       trace := c.trace ++ ["INSERT _migrations " ++ name] }, none)

/-- `Database.delete_from_table` on the ledger
(src/pg_utils/database.py:292-303, called from
src/pg_utils/migration_manager.py:47): `DELETE FROM "_migrations" WHERE
name = %s`, then `connection.commit()`. -/
def ledger_delete (o : SqlOracle) (name : String) (c : Conn) : Conn × Option String :=
  if o.delFails name then
    ({ committed := c.committed, pending := c.committed,
       trace := c.trace ++ ["DELETE _migrations " ++ name] },
     some ("DeleteError: " ++ name))
  else
    let p := { c.pending with
                ledger := c.pending.ledger.filter (fun r => r.2 != name) }
    ({ committed := p, pending := p,
       trace := c.trace ++ ["DELETE _migrations " ++ name] }, none)

/-- `MigrationManager.get_applied_migrations`
(src/pg_utils/migration_manager.py:23-26): the ledger names, in table
(insertion) order. -/
def get_applied_migrations (c : Conn) : List String :=
  c.committed.ledger.map Prod.snd

/-- Insertion step for `ORDER BY "id" DESC`. -/
def insertDescById (x : Nat × String) : List (Nat × String) → List (Nat × String)
  | [] => [x]
  | y :: ys => if y.1 ≤ x.1 then x :: y :: ys else y :: insertDescById x ys

/-- `ORDER BY "id" DESC` over the ledger rows (the sort the server
performs for `find_many`/`find_first` with `order_by=\x7b"id": "DESC"\x7d`). -/
def sortByIdDesc : List (Nat × String) → List (Nat × String)
  | [] => []
  | x :: xs => insertDescById x (sortByIdDesc xs)

/-- `up_sql, down_sql = file_content.split("-- down")`
(src/pg_utils/migration_manager.py:36): succeeds exactly when the split
yields two parts; `none` models the `ValueError` Python raises when the
unpacking target count does not match. -/
def splitOnDown (file_content : String) : Option (String × String) :=
  match pySplit file_content "-- down" with
  | [up_sql, down_sql] => some (up_sql, down_sql)
  | _ => none

/-- Number of (non-overlapping) occurrences of the `-- down` marker in a
migration file, Python `content.count("-- down")`. -/
def countDownMarkers (file_content : String) : Nat :=
  (pySplit file_content "-- down").length - 1

/-- `MigrationManager.apply_migration`
(src/pg_utils/migration_manager.py:28-55).  The migrations directory is
modelled as an association list of file name to file content; a missing
file models the `open` failure.  Any exception inside the `try` block
lands in the handler, which issues `ROLLBACK` and re-raises (the error
component of the result). -/
def apply_migration (o : SqlOracle) (fs : List (String × String))
    (file_name direction : String) (c : Conn) : Conn × Option String :=
  match List.lookup file_name fs with
  | none => ((execute_query o "ROLLBACK" c).1, some "FileNotFoundError")
  | some file_content =>
      match splitOnDown file_content with
      | none => ((execute_query o "ROLLBACK" c).1, some "ValueError")
      | some (up_sql, down_sql) =>
          let sql_to_execute :=
            if direction = "up" then pyReplace up_sql "-- up" "" else down_sql
          let c1 := (execute_query o "BEGIN" c).1
          match execute_query o sql_to_execute c1 with
          | (c2, some e) => ((execute_query o "ROLLBACK" c2).1, some e)
          | (c2, none) =>
              match (if direction = "up" then ledger_insert o file_name c2
                     else ledger_delete o file_name c2) with
              | (c3, some e) => ((execute_query o "ROLLBACK" c3).1, some e)
              | (c3, none) => ((execute_query o "COMMIT" c3).1, none)

/-- Lexicographic ≤ on character lists by code point — Python's string
comparison. -/
def charListLe : List Char → List Char → Bool
  | [], _ => true
  | _ :: _, [] => false
  | a :: as2, b :: bs =>
      if a.toNat < b.toNat then true
      else if b.toNat < a.toNat then false
      else charListLe as2 bs

/-- Python `<=` on strings (lexicographic by code point). -/
def pyStrLe (a b : String) : Bool :=
  charListLe a.data b.data

/-- Ascending insertion step for Python `sorted` on strings. -/
def insertLeStr (x : String) : List String → List String
  | [] => [x]
  | y :: ys => if pyStrLe x y then x :: y :: ys else y :: insertLeStr x ys

/-- Python `sorted(...)` on file names (lexicographic by code point,
which is exactly `String` order). -/
def sortedStrings : List String → List String
  | [] => []
  | x :: xs => insertLeStr x (sortedStrings xs)

/-- `sorted(os.listdir(self.migrations_path))`
(src/pg_utils/migration_manager.py:60). -/
def sortedFileNames (fs : List (String × String)) : List String :=
  sortedStrings (fs.map Prod.fst)

/-- The pending set of `MigrationManager.apply_all_migrations`
(src/pg_utils/migration_manager.py:59-61): sorted disk files minus the
applied ledger names. -/
def pending_migrations (fs : List (String × String)) (c : Conn) : List String :=
  (sortedFileNames fs).filter (fun m => !(get_applied_migrations c).contains m)

/-- The `for migration in pending_migrations` loop of
`apply_all_migrations` (src/pg_utils/migration_manager.py:67-69): the
first exception aborts the remaining batch. -/
def apply_loop (o : SqlOracle) (fs : List (String × String)) :
    List String → Conn → Conn × Option String
  | [], c => (c, none)
  | m :: ms, c =>
      match apply_migration o fs m "up" c with
      | (c2, none) => apply_loop o fs ms c2
      | (c2, some e) => (c2, some e)

/-- `MigrationManager.apply_all_migrations`
(src/pg_utils/migration_manager.py:57-71). -/
def apply_all_migrations (o : SqlOracle) (fs : List (String × String)) (c : Conn) :
    Conn × Option String :=
  if (pending_migrations fs c).isEmpty then (c, none)
  else apply_loop o fs (pending_migrations fs c) c

/-- The applied names in descending ledger-id order, as returned by
`find_many("_migrations", select=..., order_by=\x7b"id": "DESC"\x7d)`
(src/pg_utils/migration_manager.py:90-92). -/
def revertOrder (c : Conn) : List String :=
  (sortByIdDesc c.committed.ledger).map Prod.snd

/-- `MigrationManager.revert_last_migration`
(src/pg_utils/migration_manager.py:73-86): `find_first` with descending
id picks the head of the sorted rows; a falsy name (`None` or the empty
string) returns without reverting. -/
def revert_last_migration (o : SqlOracle) (fs : List (String × String)) (c : Conn) :
    Conn × Option String :=
  match (sortByIdDesc c.committed.ledger).head? with
  | none => (c, none)
  | some r =>
      if r.2 = "" then (c, none)
      else apply_migration o fs r.2 "down" c

/-- The `for migration in results` loop of `revert_all_migrations`
(src/pg_utils/migration_manager.py:99-102). -/
def revert_loop (o : SqlOracle) (fs : List (String × String)) :
    List String → Conn → Conn × Option String
  | [], c => (c, none)
  | m :: ms, c =>
      match apply_migration o fs m "down" c with
      | (c2, none) => revert_loop o fs ms c2
      | (c2, some e) => (c2, some e)

/-- `MigrationManager.revert_all_migrations`
(src/pg_utils/migration_manager.py:88-104). -/
def revert_all_migrations (o : SqlOracle) (fs : List (String × String)) (c : Conn) :
    Conn × Option String :=
  if (revertOrder c).isEmpty then (c, none)
  else revert_loop o fs (revertOrder c) c

/-- Pairwise strictly increasing ledger ids (insertion order = id
order, the invariant `SERIAL` maintains). -/
def pairwiseLtIds : List (Nat × String) → Bool
  | [] => true
  | p :: rest => rest.all (fun q => p.1 < q.1) && pairwiseLtIds rest

/-- Ledger well-formedness: ids strictly increase in insertion order and
stay below the next `SERIAL` value. -/
def ledgerWF (db : DBData) : Bool :=
  pairwiseLtIds db.ledger && db.ledger.all (fun p => p.1 < db.nextId)

/-- Count of a character in a string (used to count `%s` placeholders:
identifiers are `%`-free, and every `%` the compiler emits into clause
text belongs to a placeholder, except inside bound LIKE patterns which
are values, not clause text). -/
def countChar (c : Char) (s : String) : Nat :=
  s.data.count c

/-- A filter mapping whose conditions are all bare scalars (compiled as
`column = %s` equality). -/
def scalarPairs (ps : List (String × PyVal)) : List (String × Cond) :=
  ps.map (fun kv => (kv.1, Cond.scalar kv.2))

/-- Side condition for a clean run over a set of file names: each file
exists in the migrations directory and parses (exactly one `-- down`
marker). -/
def filesParse (fs : List (String × String)) (ms : List String) : Bool :=
  ms.all (fun m =>
    match List.lookup m fs with
    | none => false
    | some ct => (splitOnDown ct).isSome)

/-- A failure-free oracle: no migration SQL body and no ledger statement
raises. -/
def benignOracle : SqlOracle :=
  { sqlFails := fun _ => false, insFails := fun _ => false, delFails := fun _ => false }

/-- A two-file migrations directory (listed out of name order, as a
directory listing may be) used as a concrete example. -/
def exampleFiles : List (String × String) :=
  [("20240102000000000_b.sql", "-- up\nB-UP;\n-- down\nB-DOWN;"),
   ("20240101000000000_a.sql", "-- up\nA-UP;\n-- down\nA-DOWN;")]

theorem countChar_append (c : Char) (s t : String) :
    countChar c (s ++ t) = countChar c s + countChar c t := by
  simp [countChar, String.data_append, List.count_append]

theorem countChar_joinSep_ones (c : Char) (sep : String) (h : countChar c sep = 0)
    (l : List String) (hl : ∀ s ∈ l, countChar c s = 1) :
    countChar c (joinSep sep l) = l.length := by
  induction l with
  | nil => rfl
  | cons x xs ih =>
      cases xs with
      | nil => simpa [joinSep] using hl x (by simp)
      | cons y ys =>
          have hx := hl x (by simp)
          have hrest : ∀ s ∈ y :: ys, countChar c s = 1 := by
            intro s hs
            exact hl s (by simp [hs])
          rw [show joinSep sep (x :: y :: ys) = x ++ sep ++ joinSep sep (y :: ys) from rfl]
          rw [countChar_append, countChar_append, h, hx, ih hrest]
          simp
          omega

theorem countChar_resolveColumn (c : Char) (al : Option String) (k : String)
    (hk : countChar c k = 0) (ha : ∀ a, al = some a → countChar c a = 0)
    (hdot : countChar c "." = 0) :
    countChar c (resolveColumn al k) = 0 := by
  cases al with
  | none => simpa [resolveColumn] using hk
  | some a =>
      have ha2 := ha a rfl
      by_cases hdotk : '.' ∈ k.data
      · simp [resolveColumn, hdotk, hk]
      · simp [resolveColumn, hdotk, countChar_append, hk, ha2, hdot]

theorem processConds_scalarPairs (al : Option String) (ps : List (String × PyVal))
    (h : ∀ kv ∈ ps, kv.2 ≠ PyVal.vNone) :
    processConds al (scalarPairs ps) =
      (ps.map (fun kv => resolveColumn al kv.1 ++ " = %s"),
       ps.map (fun kv => SimpleVal.scalar kv.2)) := by
  induction ps with
  | nil => rfl
  | cons kv rest ih =>
      have hkv : kv.2 ≠ PyVal.vNone := h kv (by simp)
      have hrest : ∀ p ∈ rest, p.2 ≠ PyVal.vNone := by
        intro p hp
        exact h p (by simp [hp])
      have hhead : process_condition al kv.1 (Cond.scalar kv.2) =
          ([resolveColumn al kv.1 ++ " = %s"], [SimpleVal.scalar kv.2]) := by
        cases hv : kv.2 with
        | vNone => exact absurd hv hkv
        | vStr s => simp [process_condition, parse_simple_comparison, format_condition]
        | vInt n => simp [process_condition, parse_simple_comparison, format_condition]
        | vBool b => simp [process_condition, parse_simple_comparison, format_condition]
      rw [show scalarPairs (kv :: rest) = (kv.1, Cond.scalar kv.2) :: scalarPairs rest from rfl]
      rw [show processConds al ((kv.1, Cond.scalar kv.2) :: scalarPairs rest) =
          ((process_condition al kv.1 (Cond.scalar kv.2)).1 ++
             (processConds al (scalarPairs rest)).1,
           (process_condition al kv.1 (Cond.scalar kv.2)).2 ++
             (processConds al (scalarPairs rest)).2) from rfl]
      rw [hhead, ih hrest]
      simp

/-- C10: for a filter key mapped to an empty list, `build_where_clause`
emits the fragment `column IN ()` with zero placeholders, appends no
parameter values, and (being a total function) raises no error at build
time. -/
theorem empty_in_list_clause (k : String) (al : Option String) :
    (process_condition al k (Cond.listC [])).1 = [resolveColumn al k ++ " IN ()"] ∧
    countChar '%' (resolveColumn al k ++ " IN ()") = countChar '%' (resolveColumn al k) ∧
    (build_where_clause (some ⟨[(k, Cond.listC [])], none⟩) none al).2 = [] ∧
    (build_where_clause (some ⟨[(k, Cond.listC [])], none⟩) none al).1 =
      " WHERE (" ++ (resolveColumn al k ++ " IN ()") ++ ")" := by
  have hfrag : (process_condition al k (Cond.listC [])).1 =
      [resolveColumn al k ++ " IN ()"] := by
    simp [process_condition, parse_simple_comparison, format_condition, joinSep,
      String.append_assoc, String.append_empty]
  refine ⟨hfrag, ?_, ?_, ?_⟩
  · rw [countChar_append]
    have : countChar '%' " IN ()" = 0 := rfl
    omega
  · simp [build_where_clause, isEmptyWhere, processConds, process_condition,
      parse_simple_comparison]
  · simp only [build_where_clause, isEmptyWhere]
    rw [show processConds al [(k, Cond.listC [])] =
        ((process_condition al k (Cond.listC [])).1 ++ [],
         (process_condition al k (Cond.listC [])).2 ++ []) from rfl]
    rw [hfrag]
    simp [processConds, joinSep, String.append_assoc, String.append_empty]
    rw [← String.append_assoc]
    rfl

/-- C8 counterexample: the DDL issued by `MigrationManager.initialize`
does not satisfy the spec's ledger schema (the `"name"` column is not
declared UNIQUE). -/
theorem ledger_schema_spec_cex :
    specLedgerTableSchema migrations_table_ddl = false := by decide

/-- C8 (amended): `initialize` idempotently (IF NOT EXISTS) creates
`_migrations` with `id` auto-increment primary key, `name` non-null text
(with no UNIQUE constraint), and `created_at` timestamp defaulting to
the current time. -/
theorem ledger_schema_amended :
    amendedLedgerTableSchema migrations_table_ddl = true := by decide

/-- C7 counterexample: a key whose value is null does contribute a
`"col" = %s` SET fragment and a bound parameter to the generated UPDATE
statement — `update_into_table` performs no null-filtering on its SET
side. -/
theorem update_set_null_key_cex :
    update_set_clause [("a", PyVal.vNone)] = "\"a\" = %s" ∧
    (update_into_table_query "t" [("a", PyVal.vNone)]
        (some ⟨[("b", Cond.scalar (PyVal.vInt 1))], none⟩)).2
      = [SimpleVal.scalar PyVal.vNone, SimpleVal.scalar (PyVal.vInt 1)] := by decide

theorem build_where_clause_unfold (w : WhereClause) (vals : Option (List SimpleVal))
    (al : Option String) (hne : isEmptyWhere (some w) = false) :
    build_where_clause (some w) vals al =
      ((if ((processConds al w.andKeys).1.isEmpty
            && (processConds al (w.orKeys.getD [])).1.isEmpty) then ""
        else
          " WHERE "
          ++ (if (processConds al w.andKeys).1.isEmpty then ""
              else "(" ++ joinSep " AND " (processConds al w.andKeys).1 ++ ")")
          ++ (if (processConds al (w.orKeys.getD [])).1.isEmpty then ""
              else (if (processConds al w.andKeys).1.isEmpty then "" else " OR ")
                ++ "(" ++ joinSep " OR " (processConds al (w.orKeys.getD [])).1 ++ ")")),
       vals.getD [] ++ (processConds al w.andKeys).2
         ++ (processConds al (w.orKeys.getD [])).2) := by
  simp only [build_where_clause, hne]
  cases vals <;> rfl

/-- C4: for a filter mapping whose conditions are all scalar equality
conditions, the compiled clause contains exactly one `%s` placeholder
per key (counting `%` characters, identifiers being `%`-free), and the
parameter values are appended in key-iteration order with every OR-group
value after all AND-group values. -/
theorem build_where_scalar_placeholders
    (aps ops : List (String × PyVal)) (al : Option String)
    (hv : ∀ kv ∈ aps ++ ops, kv.2 ≠ PyVal.vNone)
    (hk : ∀ kv ∈ aps ++ ops, countChar '%' kv.1 = 0)
    (ha : ∀ a, al = some a → countChar '%' a = 0) :
    countChar '%'
        (build_where_clause (some ⟨scalarPairs aps, some (scalarPairs ops)⟩) none al).1
      = aps.length + ops.length ∧
    (build_where_clause (some ⟨scalarPairs aps, some (scalarPairs ops)⟩) none al).2
      = aps.map (fun kv => SimpleVal.scalar kv.2)
          ++ ops.map (fun kv => SimpleVal.scalar kv.2) := by
  have hva : ∀ kv ∈ aps, kv.2 ≠ PyVal.vNone := fun kv hm => hv kv (by simp [hm])
  have hvo : ∀ kv ∈ ops, kv.2 ≠ PyVal.vNone := fun kv hm => hv kv (by simp [hm])
  have pca := processConds_scalarPairs al aps hva
  have pco := processConds_scalarPairs al ops hvo
  have hfr : ∀ ps : List (String × PyVal), (∀ kv ∈ ps, countChar '%' kv.1 = 0) →
      ∀ s ∈ ps.map (fun kv => resolveColumn al kv.1 ++ " = %s"), countChar '%' s = 1 := by
    intro ps hps s hs
    obtain ⟨kv, hkv, rfl⟩ := List.mem_map.mp hs
    rw [countChar_append,
      countChar_resolveColumn '%' al kv.1 (hps kv hkv) ha rfl]
    rfl
  have hfra := hfr aps (fun kv hm => hk kv (by simp [hm]))
  have hfro := hfr ops (fun kv hm => hk kv (by simp [hm]))
  have hne : isEmptyWhere (some ⟨scalarPairs aps, some (scalarPairs ops)⟩) = false := by
    simp [isEmptyWhere]
  have ja : countChar '%'
      (joinSep " AND " (aps.map (fun kv => resolveColumn al kv.1 ++ " = %s")))
      = aps.length := by
    rw [countChar_joinSep_ones '%' " AND " rfl _ hfra]
    simp
  have jo : countChar '%'
      (joinSep " OR " (ops.map (fun kv => resolveColumn al kv.1 ++ " = %s")))
      = ops.length := by
    rw [countChar_joinSep_ones '%' " OR " rfl _ hfro]
    simp
  have hW : countChar '%' " WHERE " = 0 := rfl
  have hP : countChar '%' "(" = 0 := rfl
  have hQ : countChar '%' ")" = 0 := rfl
  have hO : countChar '%' " OR " = 0 := rfl
  have hW2 : countChar '%' " WHERE (" = 0 := rfl
  have hO2 : countChar '%' " OR (" = 0 := rfl
  rw [build_where_clause_unfold _ _ _ hne]
  rw [show (⟨scalarPairs aps, some (scalarPairs ops)⟩ : WhereClause).andKeys
      = scalarPairs aps from rfl]
  rw [show ((⟨scalarPairs aps, some (scalarPairs ops)⟩ : WhereClause).orKeys).getD []
      = scalarPairs ops from rfl]
  rw [pca, pco]
  constructor
  · cases aps with
    | nil =>
        cases ops with
        | nil => rfl
        | cons o os =>
            simp only [List.map_cons] at jo
            simp [countChar_append, jo, hW, hP, hQ, hO, hW2, hO2]
    | cons a as =>
        cases ops with
        | nil =>
            simp only [List.map_cons] at ja
            simp [countChar_append, ja, hW, hP, hQ, hO, hW2, hO2]
        | cons o os =>
            simp only [List.map_cons] at ja jo
            simp [countChar_append, ja, jo, hW, hP, hQ, hO, hW2, hO2]
  · simp

/-- Witness for C4 at a concrete input: one AND key and one OR key. -/
theorem build_where_scalar_placeholders_witness :
    countChar '%' (build_where_clause
        (some ⟨scalarPairs [("a", PyVal.vInt 1)], some (scalarPairs [("b", PyVal.vInt 2)])⟩)
        none none).1 = 2 ∧
    (build_where_clause
        (some ⟨scalarPairs [("a", PyVal.vInt 1)], some (scalarPairs [("b", PyVal.vInt 2)])⟩)
        none none).2
      = [SimpleVal.scalar (PyVal.vInt 1), SimpleVal.scalar (PyVal.vInt 2)] := by
  have h := build_where_scalar_placeholders [("a", PyVal.vInt 1)] [("b", PyVal.vInt 2)] none
    (by decide) (by decide) (by intro a ha; simp at ha)
  exact ⟨by simpa using h.1, by simpa using h.2⟩

/-- C5: AND-group fragments join with `AND`, OR-group fragments with
`OR`; with both groups non-empty the clause is
`WHERE (AND..) OR (OR..)`; with one group non-empty that group stands
alone after `WHERE`; an absent or empty filter yields an empty clause
and empty parameters. -/
theorem build_where_clause_grouping
    (vals : Option (List SimpleVal)) (al : Option String) (w : WhereClause) :
    build_where_clause none vals al = ("", []) ∧
    build_where_clause (some ⟨[], none⟩) vals al = ("", []) ∧
    ((processConds al w.andKeys).1 ≠ [] → (processConds al (w.orKeys.getD [])).1 ≠ [] →
       (build_where_clause (some w) vals al).1 =
         " WHERE (" ++ joinSep " AND " (processConds al w.andKeys).1 ++ ") OR ("
           ++ joinSep " OR " (processConds al (w.orKeys.getD [])).1 ++ ")") ∧
    ((processConds al w.andKeys).1 ≠ [] → (processConds al (w.orKeys.getD [])).1 = [] →
       (build_where_clause (some w) vals al).1 =
         " WHERE (" ++ joinSep " AND " (processConds al w.andKeys).1 ++ ")") ∧
    ((processConds al w.andKeys).1 = [] → (processConds al (w.orKeys.getD [])).1 ≠ [] →
       (build_where_clause (some w) vals al).1 =
         " WHERE (" ++ joinSep " OR " (processConds al (w.orKeys.getD [])).1 ++ ")") := by
  have handNe : (processConds al w.andKeys).1 ≠ [] → w.andKeys.isEmpty = false := by
    intro hA
    cases hwk : w.andKeys with
    | nil =>
        rw [hwk] at hA
        exact absurd rfl hA
    | cons p ps => simp
  have horNe : (processConds al (w.orKeys.getD [])).1 ≠ [] → w.orKeys.isNone = false := by
    intro hO
    cases hok : w.orKeys with
    | none =>
        rw [hok] at hO
        exact absurd rfl hO
    | some l => simp
  refine ⟨rfl, rfl, ?_, ?_, ?_⟩
  · intro hA hO
    have hne : isEmptyWhere (some w) = false := by
      simp [isEmptyWhere, horNe hO]
    have eA : (processConds al w.andKeys).1.isEmpty = false := by
      simpa using hA
    have eO : (processConds al (w.orKeys.getD [])).1.isEmpty = false := by
      simpa using hO
    rw [build_where_clause_unfold w vals al hne]
    simp [eA, eO]
    apply String.ext
    simp only [String.data_append, List.append_assoc]
    rfl
  · intro hA hO
    have hne : isEmptyWhere (some w) = false := by
      simp [isEmptyWhere, handNe hA]
    have eA : (processConds al w.andKeys).1.isEmpty = false := by
      simpa using hA
    rw [build_where_clause_unfold w vals al hne]
    simp [eA, hO]
    apply String.ext
    simp only [String.data_append, List.append_assoc]
    rfl
  · intro hA hO
    have hne : isEmptyWhere (some w) = false := by
      simp [isEmptyWhere, horNe hO]
    have eO : (processConds al (w.orKeys.getD [])).1.isEmpty = false := by
      simpa using hO
    rw [build_where_clause_unfold w vals al hne]
    simp [eO, hA]
    apply String.ext
    simp only [String.data_append, List.append_assoc]
    rfl

/-- Witness for C5 at a concrete input: one AND key and one OR key. -/
theorem build_where_clause_grouping_witness :
    (build_where_clause
        (some ⟨[("a", Cond.scalar (PyVal.vInt 1))], some [("b", Cond.scalar (PyVal.vInt 2))]⟩)
        none none).1 = " WHERE (a = %s) OR (b = %s)" := by
  have h := build_where_clause_grouping none none
      ⟨[("a", Cond.scalar (PyVal.vInt 1))], some [("b", Cond.scalar (PyVal.vInt 2))]⟩
  have h3 := h.2.2.1 (by decide) (by decide)
  rw [h3]
  decide

/-- C7 (amended): `update_into_table` applies no null-filtering to its
SET side — every key of the data mapping, null-valued keys included,
contributes exactly one `"col" = %s` placeholder, and the bound
parameters are the SET values in key order followed by the filter
values; `insert_into_table`, in contrast, drops null-valued keys from
its column list. -/
theorem update_set_includes_null_keys
    (table : String) (data : List (String × PyVal)) (w : WhereClause)
    (hw : isEmptyWhere (some w) = false)
    (hk : ∀ kv ∈ data, countChar '%' kv.1 = 0)
    (hnd : (data.map Prod.fst).Nodup) :
    countChar '%' (update_set_clause data) = data.length ∧
    (update_into_table_query table data (some w)).2 =
      data.map (fun kv => SimpleVal.scalar kv.2)
        ++ (processConds none w.andKeys).2
        ++ (processConds none (w.orKeys.getD [])).2 ∧
    (∀ kv ∈ data, kv.2 = PyVal.vNone → kv.1 ∉ insert_columns data) := by
  refine ⟨?_, ?_, ?_⟩
  · have hfr : ∀ s ∈ data.map (fun kv => quoteIdent kv.1 ++ " = %s"),
        countChar '%' s = 1 := by
      intro s hs
      obtain ⟨kv, hkv, rfl⟩ := List.mem_map.mp hs
      rw [countChar_append]
      have hq : countChar '%' (quoteIdent kv.1) = 0 := by
        unfold quoteIdent
        rw [countChar_append, countChar_append]
        rw [hk kv hkv]
        rfl
      rw [hq]
      rfl
    rw [show update_set_clause data
        = joinSep ", " (data.map (fun kv => quoteIdent kv.1 ++ " = %s")) from rfl]
    rw [countChar_joinSep_ones '%' ", " rfl _ hfr]
    simp
  · rw [show (update_into_table_query table data (some w)).2
        = (build_where_clause (some w)
            (some (data.map (fun kv => SimpleVal.scalar kv.2))) none).2 from rfl]
    rw [build_where_clause_unfold w _ none hw]
    rfl
  · intro kv hkv hnull hmem
    obtain ⟨kv2, hkv2, hfst⟩ := List.mem_map.mp hmem
    have hkv2f := List.mem_filter.mp hkv2
    have hkveq : kv2 = kv := List.inj_on_of_nodup_map hnd hkv2f.1 hkv hfst
    have hbad := hkv2f.2
    rw [hkveq, hnull] at hbad
    exact absurd hbad (by decide)

/-- Witness for C7's amended theorem at a concrete input containing a
null-valued key. -/
theorem update_set_includes_null_keys_witness :
    countChar '%' (update_set_clause [("a", PyVal.vNone), ("b", PyVal.vInt 2)]) = 2 ∧
    ("a" : String) ∉ insert_columns [("a", PyVal.vNone), ("b", PyVal.vInt 2)] := by
  have h := update_set_includes_null_keys "t" [("a", PyVal.vNone), ("b", PyVal.vInt 2)]
      ⟨[("c", Cond.scalar (PyVal.vInt 3))], none⟩ (by decide) (by decide) (by decide)
  exact ⟨h.1, h.2.2 ("a", PyVal.vNone) (by decide) rfl⟩

theorem execute_query_inv (o : SqlOracle) (q : String) (c : Conn)
    (hpc : c.pending = c.committed) :
    (execute_query o q c).1.pending = (execute_query o q c).1.committed ∧
    (execute_query o q c).1.committed.ledger = c.committed.ledger ∧
    (execute_query o q c).1.committed.nextId = c.committed.nextId := by
  unfold execute_query
  split_ifs <;> simp [hpc]

theorem execute_query_no_fail (o : SqlOracle) (q : String) (c : Conn)
    (hsql : ∀ s, o.sqlFails s = false) :
    (execute_query o q c).2 = none := by
  unfold execute_query
  split_ifs with h1 h2 h3 h4
  · rfl
  · rfl
  · rfl
  · rw [hsql q] at h4
    cases h4
  · rfl

theorem apply_migration_up_success (o : SqlOracle) (fs : List (String × String))
    (m : String) (c c2 : Conn) (hpc : c.pending = c.committed)
    (h : apply_migration o fs m "up" c = (c2, none)) :
    c2.pending = c2.committed ∧
    c2.committed.ledger = c.committed.ledger ++ [(c.committed.nextId, m)] ∧
    c2.committed.nextId = c.committed.nextId + 1 := by
  unfold apply_migration at h
  split at h
  · simp at h
  · split at h
    · simp at h
    · rename_i ct u d heq
      simp only [if_pos rfl] at h
      split at h
      · simp at h
      · rename_i cm hm
        have inv0 := execute_query_inv o "BEGIN" c hpc
        have hcm : (execute_query o (if True then pyReplace u "-- up" "" else d)
            (execute_query o "BEGIN" c).1).1 = cm := by rw [hm]
        have inv1 := execute_query_inv o (if True then pyReplace u "-- up" "" else d)
          (execute_query o "BEGIN" c).1 inv0.1
        rw [hcm] at inv1
        simp only [if_pos trivial] at h
        have hIns : ¬ o.insFails m = true := by
          intro hbad
          unfold ledger_insert at h
          rw [if_pos hbad] at h
          simp at h
        unfold ledger_insert at h
        rw [if_neg hIns] at h
        split at h
        · simp at h
        · rename_i c3out e3 hcommit
          simp only [Prod.mk.injEq] at h hcommit
          obtain ⟨rfl, -⟩ := h
          obtain ⟨he3, -⟩ := hcommit
          have hpe3 : e3.pending = e3.committed := by rw [← he3]
          have invC := execute_query_inv o "COMMIT" e3 hpe3
          refine ⟨invC.1, ?_, ?_⟩
          · rw [invC.2.1, ← he3]
            show cm.pending.ledger ++ [(cm.pending.nextId, m)]
              = c.committed.ledger ++ [(c.committed.nextId, m)]
            rw [inv1.1, inv1.2.1, inv1.2.2, inv0.2.1, inv0.2.2]
          · rw [invC.2.2, ← he3]
            show cm.pending.nextId + 1 = c.committed.nextId + 1
            rw [inv1.1, inv1.2.2, inv0.2.2]

theorem apply_migration_up_no_fail (o : SqlOracle) (fs : List (String × String))
    (m ct u d : String) (c : Conn)
    (hsql : ∀ s, o.sqlFails s = false) (hins : ∀ n, o.insFails n = false)
    (hlk : List.lookup m fs = some ct) (hsp : splitOnDown ct = some (u, d)) :
    (apply_migration o fs m "up" c).2 = none := by
  unfold apply_migration
  split
  · rename_i hnone
    rw [hlk] at hnone
    cases hnone
  · rename_i ct2 hct2
    rw [hlk] at hct2
    injection hct2 with hct2
    subst hct2
    split
    · rename_i hsp2
      rw [hsp] at hsp2
      cases hsp2
    · rename_i u2 d2 hsp2
      split
      · dsimp only []
        split
        · rename_i cm e hcm
          have hn := execute_query_no_fail o (pyReplace u2 "-- up" "")
            (execute_query o "BEGIN" c).1 hsql
          rw [hcm] at hn
          cases hn
        · rename_i cm hcm
          split
          · rename_i c3 e3 hc3
            unfold ledger_insert at hc3
            rw [hins m] at hc3
            simp at hc3
          · rfl
      · rename_i hne
        exact absurd rfl hne

theorem apply_loop_applied (o : SqlOracle) (fs : List (String × String)) :
    ∀ (ms : List String) (c c2 : Conn), c.pending = c.committed →
      apply_loop o fs ms c = (c2, none) →
      c2.pending = c2.committed ∧
      get_applied_migrations c2 = get_applied_migrations c ++ ms := by
  intro ms
  induction ms with
  | nil =>
      intro c c2 hpc h
      unfold apply_loop at h
      simp only [Prod.mk.injEq] at h
      obtain ⟨rfl, -⟩ := h
      exact ⟨hpc, by simp⟩
  | cons m ms ih =>
      intro c c2 hpc h
      unfold apply_loop at h
      split at h
      · rename_i cm hcm
        have hs := apply_migration_up_success o fs m c cm hpc hcm
        have hrec := ih cm c2 hs.1 h
        refine ⟨hrec.1, ?_⟩
        rw [hrec.2]
        unfold get_applied_migrations
        rw [hs.2.1]
        simp
      · rename_i cm e hcm
        simp at h

theorem apply_loop_no_fail (o : SqlOracle) (fs : List (String × String))
    (hsql : ∀ s, o.sqlFails s = false) (hins : ∀ n, o.insFails n = false) :
    ∀ (ms : List String) (c : Conn), filesParse fs ms = true →
      c.pending = c.committed →
      (apply_loop o fs ms c).2 = none := by
  intro ms
  induction ms with
  | nil =>
      intro c _ _
      rfl
  | cons m ms ih =>
      intro c hfp hpc
      have hfp2 := hfp
      unfold filesParse at hfp2
      rw [List.all_cons, Bool.and_eq_true] at hfp2
      have htail : filesParse fs ms = true := hfp2.2
      cases hlk : List.lookup m fs with
      | none =>
          have hhead : False := by
            have hx := hfp2.1
            rw [hlk] at hx
            exact Bool.noConfusion hx
          exact absurd trivial (fun _ => hhead)
      | some ct =>
          have hhead : (splitOnDown ct).isSome = true := by
            have hx := hfp2.1
            rw [hlk] at hx
            exact hx
          cases hsp : splitOnDown ct with
          | none =>
              rw [hsp] at hhead
              cases hhead
          | some ud =>
              obtain ⟨u, d⟩ := ud
              unfold apply_loop
              cases ham : apply_migration o fs m "up" c with
              | mk cm e =>
                  have hnone : e = none := by
                    have hx := apply_migration_up_no_fail o fs m ct u d c hsql hins hlk hsp
                    rw [ham] at hx
                    exact hx
                  subst hnone
                  have hs := apply_migration_up_success o fs m c cm hpc ham
                  exact ih cm htail hs.1

/-- C9: `apply_all_migrations` is idempotent over a fixed set of files:
after a run that completed without error, the pending set recomputed
from sorted disk files minus the applied ledger names is empty, and a
second run returns immediately with the connection unchanged (zero
migration SQL executed). -/
theorem apply_all_idempotent (o : SqlOracle) (fs : List (String × String)) (c c1 : Conn)
    (hpc : c.pending = c.committed)
    (h : apply_all_migrations o fs c = (c1, none)) :
    pending_migrations fs c1 = [] ∧ apply_all_migrations o fs c1 = (c1, none) := by
  unfold apply_all_migrations at h
  by_cases hp : (pending_migrations fs c).isEmpty
  · rw [if_pos hp] at h
    simp only [Prod.mk.injEq] at h
    obtain ⟨rfl, -⟩ := h
    have hpe : pending_migrations fs c = [] := by
      cases hq : pending_migrations fs c with
      | nil => rfl
      | cons x xs =>
          rw [hq] at hp
          cases hp
    refine ⟨hpe, ?_⟩
    unfold apply_all_migrations
    rw [hpe]
    rfl
  · rw [if_neg hp] at h
    have hla := apply_loop_applied o fs (pending_migrations fs c) c c1 hpc h
    have happlied : ∀ m ∈ sortedFileNames fs, m ∈ get_applied_migrations c1 := by
      intro m hm
      rw [hla.2]
      by_cases hmem : m ∈ get_applied_migrations c
      · exact List.mem_append.mpr (Or.inl hmem)
      · refine List.mem_append.mpr (Or.inr ?_)
        unfold pending_migrations
        rw [List.mem_filter]
        exact ⟨hm, by simp [hmem]⟩
    have hpend1 : pending_migrations fs c1 = [] := by
      unfold pending_migrations
      rw [List.filter_eq_nil_iff]
      intro m hm
      simp [happlied m hm]
    refine ⟨hpend1, ?_⟩
    unfold apply_all_migrations
    rw [hpend1]
    rfl

/-- Witness for C9: a successful two-file run followed by a second run
that finds nothing pending and leaves the connection untouched. -/
theorem apply_all_idempotent_witness :
    pending_migrations exampleFiles
        (apply_all_migrations benignOracle exampleFiles emptyConn).1 = [] ∧
    apply_all_migrations benignOracle exampleFiles
        (apply_all_migrations benignOracle exampleFiles emptyConn).1
      = ((apply_all_migrations benignOracle exampleFiles emptyConn).1, none) :=
  apply_all_idempotent benignOracle exampleFiles emptyConn
    (apply_all_migrations benignOracle exampleFiles emptyConn).1 rfl (by decide)

theorem charListLe_trans : ∀ (a b c : List Char),
    charListLe a b = true → charListLe b c = true → charListLe a c = true := by
  intro a
  induction a with
  | nil =>
      intro b c _ _
      rfl
  | cons x xs ih =>
      intro b c h1 h2
      cases b with
      | nil => exact Bool.noConfusion h1
      | cons y ys =>
          cases c with
          | nil => exact Bool.noConfusion h2
          | cons z zs =>
              unfold charListLe at h1 h2 ⊢
              split_ifs at h1 h2 ⊢ <;>
                first
                | rfl
                | omega
                | exact ih ys zs h1 h2

theorem charListLe_total : ∀ (a b : List Char),
    charListLe a b = true ∨ charListLe b a = true := by
  intro a
  induction a with
  | nil =>
      intro b
      left
      rfl
  | cons x xs ih =>
      intro b
      cases b with
      | nil =>
          right
          rfl
      | cons y ys =>
          by_cases hxy : x.toNat < y.toNat
          · left
            unfold charListLe
            rw [if_pos hxy]
          · by_cases hyx : y.toNat < x.toNat
            · right
              unfold charListLe
              rw [if_pos hyx]
            · rcases ih ys with h | h
              · left
                unfold charListLe
                rw [if_neg hxy, if_neg hyx]
                exact h
              · right
                unfold charListLe
                rw [if_neg hyx, if_neg hxy]
                exact h

theorem pyStrLe_trans (a b c : String) (h1 : pyStrLe a b = true)
    (h2 : pyStrLe b c = true) : pyStrLe a c = true :=
  charListLe_trans a.data b.data c.data h1 h2

theorem pyStrLe_total (a b : String) : pyStrLe a b = true ∨ pyStrLe b a = true :=
  charListLe_total a.data b.data

theorem insertLeStr_mem (x a : String) :
    ∀ l : List String, a ∈ insertLeStr x l ↔ a = x ∨ a ∈ l := by
  intro l
  induction l with
  | nil => simp [insertLeStr]
  | cons y ys ih =>
      unfold insertLeStr
      by_cases hxy : pyStrLe x y = true
      · rw [if_pos hxy]
        simp
      · rw [if_neg hxy]
        simp only [List.mem_cons, ih]
        tauto

theorem insertLeStr_pairwise (x : String) :
    ∀ l : List String, List.Pairwise (fun a b => pyStrLe a b = true) l →
      List.Pairwise (fun a b => pyStrLe a b = true) (insertLeStr x l) := by
  intro l
  induction l with
  | nil =>
      intro _
      simp [insertLeStr]
  | cons y ys ih =>
      intro h
      rw [List.pairwise_cons] at h
      unfold insertLeStr
      by_cases hxy : pyStrLe x y = true
      · rw [if_pos hxy]
        rw [List.pairwise_cons]
        refine ⟨?_, List.pairwise_cons.mpr h⟩
        intro z hz
        rcases List.mem_cons.mp hz with rfl | hz2
        · exact hxy
        · exact pyStrLe_trans x y z hxy (h.1 z hz2)
      · rw [if_neg hxy]
        have hyx : pyStrLe y x = true := (pyStrLe_total x y).resolve_left hxy
        rw [List.pairwise_cons]
        refine ⟨?_, ih h.2⟩
        intro z hz
        rcases (insertLeStr_mem x z ys).mp hz with rfl | hz2
        · exact hyx
        · exact h.1 z hz2

theorem sortedStrings_pairwise (l : List String) :
    List.Pairwise (fun a b => pyStrLe a b = true) (sortedStrings l) := by
  induction l with
  | nil => simp [sortedStrings]
  | cons x xs ih => exact insertLeStr_pairwise x (sortedStrings xs) ih

theorem sortedStrings_mem (a : String) :
    ∀ l : List String, a ∈ sortedStrings l ↔ a ∈ l := by
  intro l
  induction l with
  | nil => simp [sortedStrings]
  | cons x xs ih =>
      unfold sortedStrings
      rw [insertLeStr_mem, ih]
      simp

theorem insertDescById_big (x : Nat × String) :
    ∀ l : List (Nat × String), (∀ y ∈ l, x.1 < y.1) →
      insertDescById x l = l ++ [x] := by
  intro l
  induction l with
  | nil =>
      intro _
      rfl
  | cons y ys ih =>
      intro h
      unfold insertDescById
      rw [if_neg (by have := h y (by simp); omega)]
      rw [ih (fun z hz => h z (by simp [hz]))]
      rfl

theorem sortByIdDesc_reverse : ∀ l : List (Nat × String),
    pairwiseLtIds l = true → sortByIdDesc l = l.reverse := by
  intro l
  induction l with
  | nil =>
      intro _
      rfl
  | cons x xs ih =>
      intro h
      unfold pairwiseLtIds at h
      rw [Bool.and_eq_true] at h
      unfold sortByIdDesc
      rw [ih h.2]
      rw [insertDescById_big x xs.reverse ?_]
      · simp
      · intro y hy
        rw [List.mem_reverse] at hy
        have hx := h.1
        simp only [List.all_eq_true, decide_eq_true_eq] at hx
        exact hx y hy

/-- C2: `apply_all_migrations` executes pending files in ascending
lexicographic (code-point) order — the pending list is sorted and, on a
failure-free run, the new ledger records follow it in order — while
`revert_last_migration` and `revert_all_migrations` select applied
migrations in descending surrogate-id order, i.e. reverse insertion
order: files applied earlier are reverted later. -/
theorem migration_apply_revert_ordering :
    (∀ (fs : List (String × String)) (c : Conn),
        List.Pairwise (fun a b => pyStrLe a b = true) (pending_migrations fs c)) ∧
    (∀ (o : SqlOracle) (fs : List (String × String)) (c : Conn),
        (∀ s, o.sqlFails s = false) → (∀ n, o.insFails n = false) →
        filesParse fs (pending_migrations fs c) = true →
        c.pending = c.committed →
        get_applied_migrations (apply_all_migrations o fs c).1 =
          get_applied_migrations c ++ pending_migrations fs c) ∧
    (∀ c : Conn, pairwiseLtIds c.committed.ledger = true →
        revertOrder c = (get_applied_migrations c).reverse) := by
  refine ⟨?_, ?_, ?_⟩
  · intro fs c
    exact List.Pairwise.filter _ (sortedStrings_pairwise (fs.map Prod.fst))
  · intro o fs c hsql hins hfp hpc
    unfold apply_all_migrations
    by_cases hp : (pending_migrations fs c).isEmpty
    · rw [if_pos hp]
      have hpe : pending_migrations fs c = [] := by
        cases hq : pending_migrations fs c with
        | nil => rfl
        | cons x xs =>
            rw [hq] at hp
            cases hp
      rw [hpe]
      simp
    · rw [if_neg hp]
      have hn := apply_loop_no_fail o fs hsql hins (pending_migrations fs c) c hfp hpc
      have hpair : apply_loop o fs (pending_migrations fs c) c
          = ((apply_loop o fs (pending_migrations fs c) c).1, none) := by
        rw [← hn]
      exact (apply_loop_applied o fs _ c _ hpc hpair).2
  · intro c h
    unfold revertOrder
    rw [sortByIdDesc_reverse _ h]
    unfold get_applied_migrations
    simp

/-- Witness for C2: the two example files are applied in name order and
reverted in the opposite order. -/
theorem migration_apply_revert_ordering_witness :
    get_applied_migrations (apply_all_migrations benignOracle exampleFiles emptyConn).1
      = ["20240101000000000_a.sql", "20240102000000000_b.sql"] ∧
    revertOrder (apply_all_migrations benignOracle exampleFiles emptyConn).1
      = ["20240102000000000_b.sql", "20240101000000000_a.sql"] := by
  have h := migration_apply_revert_ordering
  have h2 := h.2.1 benignOracle exampleFiles emptyConn (fun s => rfl) (fun n => rfl)
    (by decide) rfl
  have h3 := h.2.2 (apply_all_migrations benignOracle exampleFiles emptyConn).1 (by decide)
  constructor
  · rw [h2]
    decide
  · rw [h3, h2]
    decide

theorem splitOnDown_of_count (ct : String) (h : countDownMarkers ct ≠ 1) :
    splitOnDown ct = none := by
  unfold splitOnDown
  unfold countDownMarkers at h
  cases hl : pySplit ct "-- down" with
  | nil => rfl
  | cons a as =>
      cases as with
      | nil => rfl
      | cons b bs =>
          cases bs with
          | nil =>
              rw [hl] at h
              simp at h
          | cons e es => rfl

/-- C3: a migration file whose content does not contain exactly one
`-- down` marker makes `apply_migration` raise the unpacking
`ValueError` before any SQL from that file is sent: the committed state
is untouched and the only statement added to the trace is the handler's
`ROLLBACK`. -/
theorem missing_down_marker_no_sql (o : SqlOracle) (fs : List (String × String))
    (name ct direction : String) (c : Conn)
    (hlk : List.lookup name fs = some ct)
    (hcnt : countDownMarkers ct ≠ 1) :
    apply_migration o fs name direction c =
      ({ committed := c.committed, pending := c.committed,
         trace := c.trace ++ ["ROLLBACK"] }, some "ValueError") := by
  have hsp := splitOnDown_of_count ct hcnt
  unfold apply_migration
  rw [hlk]
  dsimp only []
  rw [hsp]
  rfl

/-- Witness for C3: a file with no `-- down` marker. -/
theorem missing_down_marker_no_sql_witness :
    apply_migration benignOracle [("bad.sql", "no marker")] "bad.sql" "up" emptyConn =
      ({ committed := emptyConn.committed, pending := emptyConn.committed,
         trace := emptyConn.trace ++ ["ROLLBACK"] }, some "ValueError") :=
  missing_down_marker_no_sql benignOracle [("bad.sql", "no marker")] "bad.sql"
    "no marker" "up" emptyConn rfl (by decide)

theorem firstFreeAlias_not_mem (base : String) (ex : List String) :
    ∀ (fuel k : Nat) (a : String), firstFreeAlias base ex fuel k = some a → a ∉ ex := by
  intro fuel
  induction fuel with
  | zero =>
      intro k a h
      exact Option.noConfusion h
  | succ f ih =>
      intro k a h
      unfold firstFreeAlias at h
      by_cases hc : ex.contains (aliasCandidate base k)
      · rw [if_pos hc] at h
        exact ih (k + 1) a h
      · rw [if_neg hc] at h
        injection h with h2
        subst h2
        simpa using hc

theorem create_alias_fresh (t : String) (ex : List String) (a : String)
    (ex2 : List String) (h : create_alias t ex = some (a, ex2)) :
    a ∉ ex ∧ ex2 = a :: ex := by
  unfold create_alias at h
  cases hb : aliasBase t with
  | none =>
      rw [hb] at h
      exact Option.noConfusion h
  | some base =>
      rw [hb] at h
      dsimp only [] at h
      cases hff : firstFreeAlias base ex (ex.length + 1) 0 with
      | none =>
          rw [hff] at h
          exact Option.noConfusion h
      | some a0 =>
          rw [hff] at h
          dsimp only [] at h
          simp only [Option.some.injEq, Prod.mk.injEq] at h
          obtain ⟨rfl, rfl⟩ := h
          exact ⟨firstFreeAlias_not_mem base ex _ 0 a0 hff, rfl⟩

theorem assignAliases_spec : ∀ (ts ex as2 ex2 : List String),
    assignAliases ts ex = some (as2, ex2) →
    as2.Nodup ∧ (∀ a ∈ as2, a ∉ ex) := by
  intro ts
  induction ts with
  | nil =>
      intro ex as2 ex2 h
      unfold assignAliases at h
      simp only [Option.some.injEq, Prod.mk.injEq] at h
      obtain ⟨rfl, rfl⟩ := h
      exact ⟨List.nodup_nil, by simp⟩
  | cons t ts ih =>
      intro ex as2 ex2 h
      unfold assignAliases at h
      cases hca : create_alias t ex with
      | none =>
          rw [hca] at h
          exact Option.noConfusion h
      | some pr =>
          obtain ⟨a, ex3⟩ := pr
          rw [hca] at h
          dsimp only [] at h
          cases har : assignAliases ts ex3 with
          | none =>
              rw [har] at h
              exact Option.noConfusion h
          | some pr2 =>
              obtain ⟨as3, ex4⟩ := pr2
              rw [har] at h
              dsimp only [] at h
              simp only [Option.some.injEq, Prod.mk.injEq] at h
              obtain ⟨rfl, rfl⟩ := h
              have hfr := create_alias_fresh t ex a ex3 hca
              have hrec := ih ex3 as3 ex4 har
              constructor
              · rw [List.nodup_cons]
                refine ⟨?_, hrec.1⟩
                intro hmem
                have hni := hrec.2 a hmem
                rw [hfr.2] at hni
                exact hni (by simp)
              · intro b hb
                rcases List.mem_cons.mp hb with rfl | hb2
                · exact hfr.1
                · have hni := hrec.2 b hb2
                  rw [hfr.2] at hni
                  intro hbex
                  exact hni (by simp [hbex])

/-- C6: `create_alias` takes the first character of each
underscore-separated segment (`user_accounts` → `ua`), appends
increasing integer suffixes on collision (`ua1`, `ua2`, …), and
registers the chosen alias in the per-statement set, so no two tables
auto-aliased within one `find_many`/`count` statement (e.g. joins on
`orders` and `order_items`) share an alias. -/
theorem create_alias_registration_and_distinct :
    (∀ (t : String) (ex : List String) (a : String) (ex2 : List String),
        create_alias t ex = some (a, ex2) → a ∉ ex ∧ ex2 = a :: ex) ∧
    (∀ (ts ex as2 ex2 : List String),
        assignAliases ts ex = some (as2, ex2) → as2.Nodup) ∧
    create_alias "user_accounts" [] = some ("ua", ["ua"]) ∧
    create_alias "user_accounts" ["ua"] = some ("ua1", ["ua1", "ua"]) ∧
    create_alias "user_accounts" ["ua", "ua1"] = some ("ua2", ["ua2", "ua", "ua1"]) ∧
    assignAliases ["orders", "order_items"] [] = some (["o", "oi"], ["oi", "o"]) :=
  ⟨fun t ex a ex2 h => create_alias_fresh t ex a ex2 h,
   fun ts ex as2 ex2 h => (assignAliases_spec ts ex as2 ex2 h).1,
   by decide, by decide, by decide, by decide⟩

/-- Witness for C6: the suffixed alias is fresh, and the two join tables
get distinct aliases. -/
theorem create_alias_registration_and_distinct_witness :
    ("ua1" : String) ∉ (["ua"] : List String) ∧ (["o", "oi"] : List String).Nodup :=
  ⟨(create_alias_registration_and_distinct.1 "user_accounts" ["ua"] "ua1" ["ua1", "ua"]
      (by decide)).1,
   create_alias_registration_and_distinct.2.1 ["orders", "order_items"] [] ["o", "oi"]
     ["oi", "o"] (by decide)⟩

/-- C1, evaluated at the failing input (a migration whose ledger INSERT
raises after its SQL body succeeded): the exception is re-raised and the
handler's ROLLBACK is issued, the ledger holds no record for the file —
but the body's effect is already committed, because `execute_query`
commits every rowless statement immediately, so the ROLLBACK does not
make the file "leave no effect" as the claim states. -/
theorem apply_migration_ledger_insert_failure_commits_body :
    (apply_migration
        ⟨fun _ => false, fun n => n == "m1.sql", fun _ => false⟩
        [("m1.sql", "-- up\nCREATE TABLE t (id INT);\n-- down\nDROP TABLE t;")]
        "m1.sql" "up" emptyConn).2 = some "InsertError: m1.sql" ∧
    (apply_migration
        ⟨fun _ => false, fun n => n == "m1.sql", fun _ => false⟩
        [("m1.sql", "-- up\nCREATE TABLE t (id INT);\n-- down\nDROP TABLE t;")]
        "m1.sql" "up" emptyConn).1.committed.log = ["\nCREATE TABLE t (id INT);\n"] ∧
    (apply_migration
        ⟨fun _ => false, fun n => n == "m1.sql", fun _ => false⟩
        [("m1.sql", "-- up\nCREATE TABLE t (id INT);\n-- down\nDROP TABLE t;")]
        "m1.sql" "up" emptyConn).1.committed.ledger = [] ∧
    (apply_migration
        ⟨fun _ => false, fun n => n == "m1.sql", fun _ => false⟩
        [("m1.sql", "-- up\nCREATE TABLE t (id INT);\n-- down\nDROP TABLE t;")]
        "m1.sql" "up" emptyConn).1.trace
      = ["BEGIN", "\nCREATE TABLE t (id INT);\n", "INSERT _migrations m1.sql",
         "ROLLBACK"] := by
  decide

end PgUtils
